import Mathlib

/-!
Shallow embedding of `puddle_world/envs/puddle_world.py` (gym-grid):
the categorical sampler, the generic `DiscreteEnv` transition engine and
the `GridWorld` model. Floating-point probabilities and rewards are
modelled as rationals; Python `assert` failures and `IndexError` are
modelled with `Except`/`Option`. Random draws (`np_random.rand()`,
`np.random.rand()`, `action_space.sample()`) are passed as explicit
arguments.
-/

/-- `np.cumsum`: element `i` is the sum of the first `i+1` entries. -/
def cumsum (l : List ℚ) : List ℚ :=
  (List.range l.length).map fun i => (l.take (i + 1)).sum

/-- `np.argmax` on a boolean vector: the index of the first `true`,
or `0` when every entry is `false` (the maximum is then `false`,
first attained at index 0). -/
def firstTrueIdx : List Bool → ℕ
  | [] => 0
  | b :: t => if b then 0 else if t.any (fun x => x) then firstTrueIdx t + 1 else 0

/-- `categorical_sample(prob_n, np_random)` with the uniform draw
`np_random.rand()` made explicit: `(csprob_n > draw).argmax()`. -/
def categorical_sample (prob_n : List ℚ) (draw : ℚ) : ℕ :=
  firstTrueIdx ((cumsum prob_n).map fun c => decide (draw < c))

theorem cumsum_length (l : List ℚ) : (cumsum l).length = l.length := by
  simp [cumsum]

theorem cumsum_getElem? (l : List ℚ) (i : ℕ) (h : i < l.length) :
    (cumsum l)[i]? = some ((l.take (i + 1)).sum) := by
  simp [cumsum, List.getElem?_map, List.getElem?_range, h]

theorem firstTrueIdx_cons_true (t : List Bool) :
    firstTrueIdx (true :: t) = 0 := rfl

theorem firstTrueIdx_cons_false (t : List Bool) :
    firstTrueIdx (false :: t) =
      if t.any (fun x => x) then firstTrueIdx t + 1 else 0 := rfl

theorem firstTrueIdx_mem_true (l : List Bool) (h : true ∈ l) :
    l[firstTrueIdx l]? = some true := by
  induction l with
  | nil => simp at h
  | cons b t ih =>
    by_cases hb : b
    · subst hb; simp [firstTrueIdx]
    · simp only [Bool.not_eq_true] at hb
      subst hb
      simp only [List.mem_cons] at h
      have ht : true ∈ t := by
        rcases h with h | h
        · exact absurd h.symm (by simp)
        · exact h
      have hany : t.any (fun x => x) = true := by
        simp only [List.any_eq_true]
        exact ⟨true, ht, rfl⟩
      rw [firstTrueIdx_cons_false, if_pos hany]
      simpa using ih ht

theorem firstTrueIdx_lt (l : List Bool) (h : true ∈ l) :
    firstTrueIdx l < l.length := by
  have := firstTrueIdx_mem_true l h
  by_contra hge
  rw [List.getElem?_eq_none (le_of_not_lt hge)] at this
  exact Option.noConfusion this

theorem firstTrueIdx_min (l : List Bool) (j : ℕ) (hj : j < firstTrueIdx l) :
    l[j]? = some false := by
  induction l generalizing j with
  | nil => simp [firstTrueIdx] at hj
  | cons b t ih =>
    by_cases hb : b
    · subst hb; rw [firstTrueIdx_cons_true] at hj; omega
    · simp only [Bool.not_eq_true] at hb
      subst hb
      by_cases hany : t.any (fun x => x) = true
      · rw [firstTrueIdx_cons_false, if_pos hany] at hj
        cases j with
        | zero => simp
        | succ k =>
          have hk : k < firstTrueIdx t := by omega
          simpa using ih k hk
      · rw [firstTrueIdx_cons_false, if_neg hany] at hj
        omega

theorem firstTrueIdx_all_false (l : List Bool) (h : ¬ (true ∈ l)) :
    firstTrueIdx l = 0 := by
  cases l with
  | nil => rfl
  | cons b t =>
    simp only [List.mem_cons, not_or] at h
    have hb : b = false := by
      cases b
      · rfl
      · exact absurd rfl (fun hh => h.1 hh.symm)
    subst hb
    have hany : ¬ (t.any (fun x => x) = true) := by
      intro hc
      simp only [List.any_eq_true] at hc
      obtain ⟨x, hx, hxt⟩ := hc
      have hxx : x = true := by simpa using hxt
      subst hxx
      exact h.2 hx
    rw [firstTrueIdx_cons_false, if_neg hany]

/-!
## The generic transition engine (`DiscreteEnv`)
`P[s][a]` is a list of `(probability, nextstate, reward, done)` tuples.
Python dictionary lookups that the claims exercise are total here; the
`IndexError` that a bad sampled index would raise is an `Option.none`.
-/

structure DiscreteEnv where
  nS : ℕ
  nA : ℕ
  P : ℕ → ℕ → List (ℚ × ℕ × ℚ × Bool)
  isd : List ℚ
  s : ℕ
  lastaction : Option ℕ

/-- `DiscreteEnv._reset`: draw `s` from the initial state distribution
(`np_random.rand()` passed explicitly), clear `lastaction`, return `s`. -/
def DiscreteEnv.reset (env : DiscreteEnv) (draw : ℚ) : ℕ × DiscreteEnv :=
  let s := categorical_sample env.isd draw
  (s, { env with s := s, lastaction := none })

/-- `DiscreteEnv.__init__`: store `nS`, `nA`, `P`, `isd` and call `_reset`
(the pre-reset value of `s` is immaterial; `0` is a placeholder). -/
def DiscreteEnv.init (nS nA : ℕ) (P : ℕ → ℕ → List (ℚ × ℕ × ℚ × Bool))
    (isd : List ℚ) (resetDraw : ℚ) : DiscreteEnv :=
  let env0 : DiscreteEnv :=
    { nS := nS, nA := nA, P := P, isd := isd, s := 0, lastaction := none }
  (env0.reset resetDraw).2

/-- `DiscreteEnv._step`: look up `P[s][a]`, sample an outcome index over
the probability column, unpack the chosen tuple, update `s` and
`lastaction`, return `(s, r, d, prob)`. -/
def DiscreteEnv.step (env : DiscreteEnv) (a : ℕ) (draw : ℚ) :
    Option ((ℕ × ℚ × Bool × ℚ) × DiscreteEnv) :=
  let transitions := env.P env.s a
  let i := categorical_sample (transitions.map fun t => t.1) draw
  match transitions[i]? with
  | none => none
  | some (p, s, r, d) =>
      some ((s, r, d, p), { env with s := s, lastaction := some a })

/-!
## The grid model (`GridWorld`)
Actions, coordinate conversions and the stepping/reward logic. Assertion
failures are `Except.error`. The two random draws inside `_step`
(`np.random.rand()` against `noise`, and `action_space.sample()`) are the
explicit arguments `noiseDraw` and `noiseAction`.
-/

def UP : ℕ := 0
def RIGHT : ℕ := 1
def DOWN : ℕ := 2
def LEFT : ℕ := 3

/-- `GridWorld.ind2coord`: asserts `index >= 0` (the upper-bound assert is
commented out in the source), then `col = index // n`, `row = index % n`,
returning `(row, col)`. -/
def ind2coord (n : ℕ) (index : ℤ) : Except String (ℤ × ℤ) :=
  if 0 ≤ index then
    .ok (((index.toNat % n : ℕ) : ℤ), ((index.toNat / n : ℕ) : ℤ))
  else .error "AssertionError: index >= 0"

/-- `GridWorld.coord2ind`: asserts `row < n` and `col < n` (there is no
lower-bound assert in the source), returning `col * n + row`. -/
def coord2ind (n : ℕ) (row col : ℤ) : Except String ℤ :=
  if row < (n : ℤ) then
    if col < (n : ℤ) then .ok (col * (n : ℤ) + row)
    else .error "AssertionError: col < n"
  else .error "AssertionError: row < n"

structure GridWorld where
  n : ℕ
  noise : ℚ
  terminal_reward : ℚ
  border_reward : ℚ
  bump_reward : ℚ
  step_reward : ℚ
  n_states : ℕ
  terminal_state : ℤ
  absorbing_state : ℤ
  done : Bool
  start_state : ℤ
  state : ℤ

/-- `GridWorld.__init__` with an integer `start_state` (the claims never
use the random-start string form): `n_states = n**2 + 1`,
`terminal_state = n_states - 2 - terminal_state_offset`,
`absorbing_state = n_states - 1`, then `_reset`. Parameters appear in the
source order `(n, noise, terminal_reward, border_reward, step_reward,
start_state, bump_reward, terminal_state_offset)`. -/
def GridWorld.init (n : ℕ) (noise terminal_reward border_reward step_reward : ℚ)
    (start_state : ℤ) (bump_reward : ℚ) (terminal_state_offset : ℤ) : GridWorld :=
  let n_states := n ^ 2 + 1
  { n := n, noise := noise, terminal_reward := terminal_reward,
    border_reward := border_reward, bump_reward := bump_reward,
    step_reward := step_reward, n_states := n_states,
    terminal_state := (n_states : ℤ) - 2 - terminal_state_offset,
    absorbing_state := (n_states : ℤ) - 1,
    done := false, start_state := start_state, state := start_state }

/-- `GridWorld._reset` for an integer `start_state`: restore the start
state, clear `done`, return the state. -/
def GridWorld.reset (g : GridWorld) : ℤ × GridWorld :=
  let g2 := { g with state := g.start_state, done := false }
  (g2.state, g2)

/-- `GridWorld.at_border`: decode the current (pre-move) state and test
whether its row or column is `0` or `n - 1`. -/
def GridWorld.at_border (g : GridWorld) : Except String Bool :=
  match ind2coord g.n g.state with
  | .error e => .error e
  | .ok (row, col) =>
      .ok (decide (row = 0 ∨ row = (g.n : ℤ) - 1 ∨ col = 0 ∨ col = (g.n : ℤ) - 1))

/-- `GridWorld._get_reward(new_state)`: `terminal_reward` when `done`;
otherwise `step_reward`, overridden by `border_reward` when it is nonzero
and the pre-move state is at the border, in turn overridden by
`bump_reward` when it is nonzero and `new_state` equals the pre-move
state. `new_state = none` models the Python default `None` (which never
equals an integer state). -/
def GridWorld.get_reward (g : GridWorld) (new_state : Option ℤ) : Except String ℚ :=
  if g.done then .ok g.terminal_reward
  else
    let reward := g.step_reward
    let rewardE : Except String ℚ :=
      if g.border_reward ≠ 0 then
        match g.at_border with
        | .error e => .error e
        | .ok b => .ok (if b then g.border_reward else reward)
      else .ok reward
    match rewardE with
    | .error e => .error e
    | .ok r =>
        .ok (if g.bump_reward ≠ 0 ∧ new_state = some g.state then g.bump_reward else r)

/-- `GridWorld._step(action)`: assert the action is one of the four;
shortcut from the terminal state into the absorbing state with `done`
set; otherwise decode, possibly replace the action by `noiseAction` when
`noiseDraw < noise`, apply the clamped move, re-encode, compute the
reward from the pre-move state, and commit the new state. -/
def GridWorld.step (g : GridWorld) (action : ℕ) (noiseDraw : ℚ) (noiseAction : ℕ) :
    Except String ((ℤ × ℚ × Bool) × GridWorld) :=
  if action < 4 then
    if g.state = g.terminal_state then
      let g2 := { g with state := g.absorbing_state, done := true }
      match g2.get_reward none with
      | .error e => .error e
      | .ok r => .ok ((g2.state, r, g2.done), g2)
    else
      match ind2coord g.n g.state with
      | .error e => .error e
      | .ok (row, col) =>
        let a := if noiseDraw < g.noise then noiseAction else action
        let rc : ℤ × ℤ :=
          if a = UP then (max (row - 1) 0, col)
          else if a = DOWN then (min (row + 1) ((g.n : ℤ) - 1), col)
          else if a = RIGHT then (row, min (col + 1) ((g.n : ℤ) - 1))
          else if a = LEFT then (row, max (col - 1) 0)
          else (row, col)
        match coord2ind g.n rc.1 rc.2 with
        | .error e => .error e
        | .ok new_state =>
          match g.get_reward (some new_state) with
          | .error e => .error e
          | .ok reward =>
            .ok ((new_state, reward, g.done), { g with state := new_state })
  else .error "AssertionError: action_space.contains(action)"

/-!
## Claims about the categorical sampler (C2, C9)
-/

theorem mem_of_getElem?_some {α : Type} {l : List α} {i : ℕ} {a : α}
    (h : l[i]? = some a) : a ∈ l := by
  rw [List.getElem?_eq_some] at h
  obtain ⟨hlt, hb⟩ := h
  exact hb ▸ List.getElem_mem hlt

theorem lt_length_of_getElem?_some {α : Type} {l : List α} {i : ℕ} {a : α}
    (h : l[i]? = some a) : i < l.length := by
  rw [List.getElem?_eq_some] at h
  exact h.1

theorem cumsum_take_mono (p : List ℚ) (hnn : ∀ x ∈ p, 0 ≤ x) {i k : ℕ}
    (hik : i ≤ k) : (p.take (i + 1)).sum ≤ (p.take (k + 1)).sum := by
  have hsplit : p.take (k + 1) = p.take (i + 1) ++ ((p.drop (i + 1)).take (k - i)) := by
    rw [← List.take_add]
    congr 1
    omega
  rw [hsplit, List.sum_append]
  have h0 : 0 ≤ ((p.drop (i + 1)).take (k - i)).sum := by
    apply List.sum_nonneg
    intro x hx
    exact hnn x (List.mem_of_mem_drop (List.mem_of_mem_take hx))
  linarith

/-- C2 is false as stated: for the probability vector `[1/2, 2/5]`
(summing to `9/10 < 1`) and the draw `19/20 < 1`, the cumulative sum
falls short of the draw everywhere, and `categorical_sample` returns
index `0` — `np.argmax` of an all-false comparison vector — not the last
index `1`. -/
theorem C2_counterexample :
    ([(1:ℚ)/2, 2/5].sum < 1) ∧ ((19:ℚ)/20 < 1) ∧
    categorical_sample [(1:ℚ)/2, 2/5] (19/20) = 0 ∧
    ¬ categorical_sample [(1:ℚ)/2, 2/5] (19/20) = [(1:ℚ)/2, 2/5].length - 1 := by
  have hc : categorical_sample [(1:ℚ)/2, 2/5] (19/20) = 0 := by
    norm_num [categorical_sample, cumsum, firstTrueIdx, List.range_succ]
  refine ⟨by norm_num, by norm_num, hc, ?_⟩
  rw [hc]
  norm_num

/-- C2 (amended): for every nonempty probability vector — in particular
one whose entries sum to slightly less than 1 — and every draw, the
sampler returns a valid index (strictly below the vector length) without
raising; when the cumulative sum never exceeds the draw, the catch-all
index it returns is `0`, the first index, not the last one. -/
theorem C2_amended_catch_all (p : List ℚ) (draw : ℚ) (h : p ≠ []) :
    categorical_sample p draw < p.length ∧
      ((∀ c ∈ cumsum p, c ≤ draw) → categorical_sample p draw = 0) := by
  have hcs : categorical_sample p draw
      = firstTrueIdx ((cumsum p).map fun c => decide (draw < c)) := rfl
  have hmlen : ((cumsum p).map fun c => decide (draw < c)).length = p.length := by
    rw [List.length_map, cumsum_length]
  constructor
  · rw [hcs]
    by_cases htrue : true ∈ (cumsum p).map fun c => decide (draw < c)
    · rw [← hmlen]
      exact firstTrueIdx_lt _ htrue
    · rw [firstTrueIdx_all_false _ htrue]
      exact List.length_pos.mpr h
  · intro hall
    rw [hcs]
    apply firstTrueIdx_all_false
    intro hmem
    rw [List.mem_map] at hmem
    obtain ⟨c, hcmem, hdec⟩ := hmem
    rw [decide_eq_true_eq] at hdec
    exact absurd hdec (not_lt.mpr (hall c hcmem))

theorem C2_amended_catch_all_witness :
    ([(1:ℚ)/2, 2/5] ≠ []) ∧
    (categorical_sample [(1:ℚ)/2, 2/5] (19/20) < [(1:ℚ)/2, 2/5].length ∧
      ((∀ c ∈ cumsum [(1:ℚ)/2, 2/5], c ≤ (19:ℚ)/20) →
        categorical_sample [(1:ℚ)/2, 2/5] (19/20) = 0)) :=
  ⟨by simp, C2_amended_catch_all [(1:ℚ)/2, 2/5] (19/20) (by simp)⟩

/-- C9: for a probability vector summing to `1` with non-negative entries
and a draw in `[0, 1)`, `categorical_sample` returns the smallest index
whose cumulative sum exceeds the draw: the result is in range, its
cumulative sum exceeds the draw, every earlier cumulative sum is at most
the draw, and any index satisfying `cs[i-1] ≤ draw < cs[i]` (the `j = 0`
case playing the role of `cs[-1] = 0 ≤ draw`) equals it. -/
theorem C9_smallest_exceeding_index (p : List ℚ) (draw : ℚ)
    (hsum : p.sum = 1) (hnn : ∀ x ∈ p, 0 ≤ x) (h0 : 0 ≤ draw) (h1 : draw < 1) :
    categorical_sample p draw < p.length ∧
    (∃ ci, (cumsum p)[categorical_sample p draw]? = some ci ∧ draw < ci) ∧
    (∀ j cj, j < categorical_sample p draw → (cumsum p)[j]? = some cj → cj ≤ draw) ∧
    (∀ j cj, (cumsum p)[j]? = some cj → draw < cj →
      (j = 0 ∨ ∃ cjm, (cumsum p)[j - 1]? = some cjm ∧ cjm ≤ draw) →
      j = categorical_sample p draw) := by
  have hne : p ≠ [] := by
    intro hnil
    rw [hnil] at hsum
    simp at hsum
  have hlen : 0 < p.length := List.length_pos.mpr hne
  have hcs : categorical_sample p draw
      = firstTrueIdx ((cumsum p).map fun c => decide (draw < c)) := rfl
  have hmlen : ((cumsum p).map fun c => decide (draw < c)).length = p.length := by
    rw [List.length_map, cumsum_length]
  have hlast : ((cumsum p).map fun c => decide (draw < c))[p.length - 1]? = some true := by
    rw [List.getElem?_map, cumsum_getElem? p _ (by omega)]
    have htake : p.take (p.length - 1 + 1) = p := by
      rw [Nat.sub_add_cancel hlen]
      exact List.take_length p
    rw [htake, hsum]
    simp [h1]
  have htrue : true ∈ (cumsum p).map fun c => decide (draw < c) :=
    mem_of_getElem?_some hlast
  have hilt : categorical_sample p draw < p.length := by
    rw [hcs, ← hmlen]
    exact firstTrueIdx_lt _ htrue
  have hi_some : ((cumsum p).map fun c => decide (draw < c))[categorical_sample p draw]?
      = some true := by
    rw [hcs]
    exact firstTrueIdx_mem_true _ htrue
  rw [List.getElem?_map] at hi_some
  obtain ⟨ci, hci, hcidec⟩ := Option.map_eq_some'.mp hi_some
  rw [decide_eq_true_eq] at hcidec
  have hmin : ∀ j cj, j < categorical_sample p draw → (cumsum p)[j]? = some cj →
      cj ≤ draw := by
    intro j cj hj hcj
    rw [hcs] at hj
    have hmaskj := firstTrueIdx_min _ j hj
    rw [List.getElem?_map, hcj] at hmaskj
    have hdecf : decide (draw < cj) = false := by simpa using hmaskj
    rw [decide_eq_false_iff_not] at hdecf
    exact not_lt.mp hdecf
  refine ⟨hilt, ⟨ci, hci, hcidec⟩, hmin, ?_⟩
  intro j cj hcj hdrawcj hside
  by_contra hne2
  rcases Nat.lt_or_ge j (categorical_sample p draw) with hjlt | hjge
  · exact absurd hdrawcj (not_lt.mpr (hmin j cj hjlt hcj))
  · have hjgt : categorical_sample p draw < j := by omega
    have hj1 : 1 ≤ j := by omega
    rcases hside with hj0 | ⟨cjm, hcjm, hcjmle⟩
    · omega
    · have hjlen : j < p.length := by
        have := lt_length_of_getElem?_some hcj
        rwa [cumsum_length] at this
      have hcival : ci = (p.take (categorical_sample p draw + 1)).sum := by
        rw [cumsum_getElem? p _ hilt] at hci
        exact (Option.some.injEq _ _ ▸ hci).symm
      have hcjmval : cjm = (p.take (j - 1 + 1)).sum := by
        rw [cumsum_getElem? p _ (by omega)] at hcjm
        exact (Option.some.injEq _ _ ▸ hcjm).symm
      have hmono : (p.take (categorical_sample p draw + 1)).sum
          ≤ (p.take (j - 1 + 1)).sum :=
        cumsum_take_mono p hnn (by omega)
      rw [← hcival, ← hcjmval] at hmono
      linarith

theorem C9_smallest_exceeding_index_witness :
    ([(1:ℚ)/2, 1/2].sum = 1) ∧ ((0:ℚ) ≤ 3/4) ∧ ((3:ℚ)/4 < 1) ∧
    (categorical_sample [(1:ℚ)/2, 1/2] (3/4) < [(1:ℚ)/2, 1/2].length ∧
    (∃ ci, (cumsum [(1:ℚ)/2, 1/2])[categorical_sample [(1:ℚ)/2, 1/2] (3/4)]?
      = some ci ∧ (3:ℚ)/4 < ci) ∧
    (∀ j cj, j < categorical_sample [(1:ℚ)/2, 1/2] (3/4) →
      (cumsum [(1:ℚ)/2, 1/2])[j]? = some cj → cj ≤ (3:ℚ)/4) ∧
    (∀ j cj, (cumsum [(1:ℚ)/2, 1/2])[j]? = some cj → (3:ℚ)/4 < cj →
      (j = 0 ∨ ∃ cjm, (cumsum [(1:ℚ)/2, 1/2])[j - 1]? = some cjm ∧ cjm ≤ (3:ℚ)/4) →
      j = categorical_sample [(1:ℚ)/2, 1/2] (3/4))) :=
  ⟨by norm_num, by norm_num, by norm_num,
    C9_smallest_exceeding_index [(1:ℚ)/2, 1/2] (3/4) (by norm_num)
      (by intro x hx; fin_cases hx <;> norm_num)
      (by norm_num) (by norm_num)⟩

/-!
## Claims about the coordinate conversions (C7, C6)
-/

/-- C7: for every grid size `n` and every non-absorbing index
`0 ≤ i < n²`, decoding with `ind2coord` and re-encoding with `coord2ind`
returns the same index: the conversions realise the bijection
`index = col * n + row`, `col = index // n`, `row = index % n`. -/
theorem C7_roundtrip (n : ℕ) (i : ℤ) (h0 : 0 ≤ i) (h1 : i < (n : ℤ) ^ 2) :
    (ind2coord n i).bind (fun rc => coord2ind n rc.1 rc.2) = .ok i := by
  have hsq : ((n : ℤ)) ^ 2 = ((n * n : ℕ) : ℤ) := by push_cast; ring
  have hi : ((i.toNat : ℕ) : ℤ) = i := Int.toNat_of_nonneg h0
  have hmlt : i.toNat < n * n := by
    rw [hsq] at h1
    omega
  have hn : 0 < n := by
    rcases Nat.eq_zero_or_pos n with hz | hp
    · subst hz; omega
    · exact hp
  have hmod : i.toNat % n < n := Nat.mod_lt _ hn
  have hdiv : i.toNat / n < n := Nat.div_lt_of_lt_mul hmlt
  rw [ind2coord, if_pos h0]
  show coord2ind n ((i.toNat % n : ℕ) : ℤ) ((i.toNat / n : ℕ) : ℤ) = .ok i
  rw [coord2ind, if_pos (by exact_mod_cast hmod), if_pos (by exact_mod_cast hdiv)]
  congr 1
  have hnat : i.toNat / n * n + i.toNat % n = i.toNat := Nat.div_add_mod' _ _
  calc ((i.toNat / n : ℕ) : ℤ) * (n : ℤ) + ((i.toNat % n : ℕ) : ℤ)
      = ((i.toNat / n * n + i.toNat % n : ℕ) : ℤ) := by push_cast; ring
    _ = ((i.toNat : ℕ) : ℤ) := by rw [hnat]
    _ = i := hi

theorem C7_roundtrip_witness :
    ((0:ℤ) ≤ 5) ∧ ((5:ℤ) < (3:ℕ) ^ 2) ∧
    (ind2coord 3 5).bind (fun rc => coord2ind 3 rc.1 rc.2) = .ok 5 :=
  ⟨by norm_num, by norm_num, C7_roundtrip 3 5 (by norm_num) (by norm_num)⟩

/-- C6 is false as stated: with `n = 3`, `ind2coord` accepts the
out-of-range index `9 = n²` without raising (the upper-bound assert is
commented out in the source), returning the out-of-grid coordinate
`(0, 3)`; and `coord2ind` accepts the negative row `-1` without raising
(there is no lower-bound assert), returning `-1`. -/
theorem C6_counterexample :
    ind2coord 3 9 = .ok (0, 3) ∧ coord2ind 3 (-1) 0 = .ok (-1) := by
  constructor
  · rw [ind2coord, if_pos (by norm_num)]
    norm_num
  · rw [coord2ind, if_pos (by norm_num), if_pos (by norm_num)]
    norm_num

/-- C6 (amended): `step` raises for an action outside the declared
four-action set; `ind2coord` asserts only that its index is
non-negative, succeeding on every index `≥ 0` including out-of-range
ones; `coord2ind` asserts only the upper bounds `row < n` and `col < n`,
accepting negative coordinates. -/
theorem C6_amended_asserts (g : GridWorld) (a : ℕ) (ha : 4 ≤ a) (draw : ℚ)
    (na : ℕ) (n : ℕ) (i row col : ℤ) :
    (∃ e, g.step a draw na = .error e) ∧
    ((∃ rc, ind2coord n i = .ok rc) ↔ 0 ≤ i) ∧
    ((∃ j, coord2ind n row col = .ok j) ↔ (row < (n : ℤ) ∧ col < (n : ℤ))) := by
  refine ⟨⟨"AssertionError: action_space.contains(action)", ?_⟩, ?_, ?_⟩
  · rw [GridWorld.step, if_neg (by omega)]
  · constructor
    · rintro ⟨rc, hrc⟩
      by_contra hneg
      rw [ind2coord, if_neg hneg] at hrc
      exact Except.noConfusion hrc
    · intro hpos
      exact ⟨_, by rw [ind2coord, if_pos hpos]⟩
  · constructor
    · rintro ⟨j, hj⟩
      rw [coord2ind] at hj
      by_cases hr : row < (n : ℤ)
      · rw [if_pos hr] at hj
        by_cases hc : col < (n : ℤ)
        · exact ⟨hr, hc⟩
        · rw [if_neg hc] at hj
          exact Except.noConfusion hj
      · rw [if_neg hr] at hj
        exact Except.noConfusion hj
    · rintro ⟨hr, hc⟩
      exact ⟨_, by rw [coord2ind, if_pos hr, if_pos hc]⟩

/-!
## Claims about the grid model dynamics (C5, C4, C3, C1, C10)
-/

/-- The scenario grid of the claims: `GridWorld(n=3, noise=0,
start_state=0, terminal_state_offset=1)` with the remaining constructor
defaults `terminal_reward=1.0`, `border_reward=0.0`, `step_reward=0.0`,
`bump_reward=-0.5`. -/
def gridC3 : GridWorld := GridWorld.init 3 0 1 0 0 0 (-1/2) 1

theorem C6_amended_asserts_witness :
    ((4:ℕ) ≤ 4) ∧
    ((∃ e, gridC3.step 4 (1/2) 0 = .error e) ∧
    ((∃ rc, ind2coord 3 9 = .ok rc) ↔ (0:ℤ) ≤ 9) ∧
    ((∃ j, coord2ind 3 (-1) 0 = .ok j) ↔ ((-1:ℤ) < (3:ℕ) ∧ (0:ℤ) < (3:ℕ)))) :=
  ⟨le_refl 4, C6_amended_asserts gridC3 4 (le_refl 4) (1/2) 0 3 9 (-1) 0⟩

/-- C5: on a non-terminal reward computation (`done` false), the reward
is `bump_reward` when `bump_reward ≠ 0` and `new_state` equals the
pre-move state (the move was fully absorbed by clamping); otherwise
`border_reward` when `border_reward ≠ 0` and the pre-move state lies on
the border; otherwise `step_reward`. Bump overrides border when both
triggers hold, matching the written order of the source. -/
theorem C5_reward_precedence (g : GridWorld) (ns : ℤ) (b : Bool)
    (hd : g.done = false) (hb : g.at_border = .ok b) :
    g.get_reward (some ns) =
      .ok (if g.bump_reward ≠ 0 ∧ ns = g.state then g.bump_reward
           else if g.border_reward ≠ 0 ∧ b = true then g.border_reward
           else g.step_reward) := by
  simp only [GridWorld.get_reward]
  rw [if_neg (by simp [hd])]
  by_cases hbr : g.border_reward ≠ 0
  · rw [if_pos hbr, hb]
    by_cases hbump : g.bump_reward ≠ 0 ∧ (some ns : Option ℤ) = some g.state
    · have hbump2 : g.bump_reward ≠ 0 ∧ ns = g.state := by
        simpa using hbump
      simp only [if_pos hbump, if_pos hbump2]
    · have hbump2 : ¬ (g.bump_reward ≠ 0 ∧ ns = g.state) := by
        simpa using hbump
      simp only [if_neg hbump, if_neg hbump2]
      by_cases hbv : b = true
      · simp [hbv, hbr]
      · simp [hbv, hbr]
  · rw [if_neg hbr]
    by_cases hbump : g.bump_reward ≠ 0 ∧ (some ns : Option ℤ) = some g.state
    · have hbump2 : g.bump_reward ≠ 0 ∧ ns = g.state := by
        simpa using hbump
      simp only [if_pos hbump, if_pos hbump2]
    · have hbump2 : ¬ (g.bump_reward ≠ 0 ∧ ns = g.state) := by
        simpa using hbump
      simp only [if_neg hbump, if_neg hbump2]
      simp [hbr]

theorem C5_reward_precedence_witness :
    (gridC3.done = false) ∧ (gridC3.at_border = .ok true) ∧
    gridC3.get_reward (some 3) =
      .ok (if gridC3.bump_reward ≠ 0 ∧ (3:ℤ) = gridC3.state then gridC3.bump_reward
           else if gridC3.border_reward ≠ 0 ∧ true = true then gridC3.border_reward
           else gridC3.step_reward) := by
  have hb : gridC3.at_border = .ok true := by
    norm_num [GridWorld.at_border, ind2coord, gridC3, GridWorld.init]
  exact ⟨rfl, hb, C5_reward_precedence gridC3 3 true rfl hb⟩

/-- C4: whenever the current state is the terminal state, `step` with any
valid action transitions to the absorbing state, sets `done`, and
returns `(absorbing_state, terminal_reward, done=true)` with `info`
`None`; and a step from a non-terminal state while `done` is still false
returns `done = false`, so the terminal reward rule does not fire on the
step that arrives at the terminal cell — it is granted on departure. -/
theorem C4_terminal_departure (g : GridWorld) (a : ℕ) (draw : ℚ) (na : ℕ)
    (ha : a < 4) :
    (g.state = g.terminal_state →
      g.step a draw na =
        .ok ((g.absorbing_state, g.terminal_reward, true),
          { g with state := g.absorbing_state, done := true })) ∧
    (g.done = false → g.state ≠ g.terminal_state →
      ∀ x g2, g.step a draw na = .ok (x, g2) →
        x.2.2 = false ∧ g2.done = false) := by
  constructor
  · intro ht
    rw [GridWorld.step, if_pos ha, if_pos ht]
    rfl
  · intro hdone hne x g2 hstep
    rw [GridWorld.step, if_pos ha, if_neg hne] at hstep
    dsimp only at hstep
    repeat' split at hstep
    all_goals try exact Except.noConfusion hstep
    all_goals
      rw [Except.ok.injEq, Prod.mk.injEq] at hstep
      obtain ⟨hx, hg2⟩ := hstep
      exact ⟨by rw [← hx]; exact hdone, by rw [← hg2]; exact hdone⟩

theorem C4_terminal_departure_witness :
    ((0:ℕ) < 4) ∧
    (({ gridC3 with state := 7 } : GridWorld).state
        = ({ gridC3 with state := 7 } : GridWorld).terminal_state →
      ({ gridC3 with state := 7 } : GridWorld).step 0 (1/2) 0 =
        .ok ((({ gridC3 with state := 7 } : GridWorld).absorbing_state,
              ({ gridC3 with state := 7 } : GridWorld).terminal_reward, true),
          { ({ gridC3 with state := 7 } : GridWorld) with
              state := ({ gridC3 with state := 7 } : GridWorld).absorbing_state,
              done := true })) ∧
    (({ gridC3 with state := 7 } : GridWorld).done = false →
      ({ gridC3 with state := 7 } : GridWorld).state
        ≠ ({ gridC3 with state := 7 } : GridWorld).terminal_state →
      ∀ x g2, ({ gridC3 with state := 7 } : GridWorld).step 0 (1/2) 0 = .ok (x, g2) →
        x.2.2 = false ∧ g2.done = false) :=
  ⟨by norm_num, C4_terminal_departure { gridC3 with state := 7 } 0 (1/2) 0 (by norm_num)⟩

/-- C3 is false as stated: the grid constructed with `n = 3`,
`terminal_state_offset = 1` has `terminal_state = n_states - 2 - offset
= (3² + 1) - 2 - 1 = 7`, not `6`: the claim's arithmetic `3² - 2 - 1`
substitutes `n²` where the code uses `n_states = n² + 1`. -/
theorem C3_counterexample : ¬ gridC3.terminal_state = 6 := by
  norm_num [gridC3, GridWorld.init]

/-- C3 (amended): for the grid constructed with `n=3, noise=0,
start_state=0, terminal_state_offset=1`, the terminal state equals `7`
(the general formula `n² − 1 − terminal_state_offset` from the claim,
correctly evaluated); `reset()` returns `0`; and `step(RIGHT)` from
state 0 moves to `coord2ind(0,1) = 3` with reward `step_reward = 0` and
`done = false`, for every noise draw in `[0, 1)`. -/
theorem C3_scenario (draw : ℚ) (na : ℕ) (hdraw : 0 ≤ draw) :
    gridC3.terminal_state = (3:ℤ) ^ 2 - 1 - 1 ∧
    gridC3.reset.1 = 0 ∧
    gridC3.step RIGHT draw na =
      .ok ((3, gridC3.step_reward, false), { gridC3 with state := 3 }) ∧
    gridC3.step_reward = 0 := by
  have hnoise : ¬ (draw < (0:ℚ)) := not_lt.mpr hdraw
  refine ⟨by norm_num [gridC3, GridWorld.init],
    by norm_num [gridC3, GridWorld.reset, GridWorld.init], ?_,
    by norm_num [gridC3, GridWorld.init]⟩
  norm_num [GridWorld.step, GridWorld.get_reward, GridWorld.at_border,
    ind2coord, coord2ind, gridC3, GridWorld.init, UP, RIGHT, DOWN, LEFT, hnoise]

theorem C3_scenario_witness :
    ((0:ℚ) ≤ 1/2) ∧
    (gridC3.terminal_state = (3:ℤ) ^ 2 - 1 - 1 ∧
    gridC3.reset.1 = 0 ∧
    gridC3.step RIGHT (1/2) 0 =
      .ok ((3, gridC3.step_reward, false), { gridC3 with state := 3 }) ∧
    gridC3.step_reward = 0) :=
  ⟨by norm_num, C3_scenario (1/2) 0 (by norm_num)⟩

/-- C1 is violated by the code: on the n=3 grid, the terminal step from
state 7 does enter the absorbing state 9 with `done = true`, but a
further `step(RIGHT)` from the absorbing state returns the ordinary
in-grid state 6 — `current_state` leaves `absorbing_state` — and a
further `step(UP)` fails the `col < n` assertion inside `coord2ind`
instead of returning a tuple at all. -/
theorem C1_divergence :
    GridWorld.step { gridC3 with state := 7 } RIGHT (1/2) 0
      = .ok ((9, 1, true), { gridC3 with state := 9, done := true }) ∧
    GridWorld.step { gridC3 with state := 9, done := true } RIGHT (1/2) 0
      = .ok ((6, 1, true), { gridC3 with state := 6, done := true }) ∧
    GridWorld.step { gridC3 with state := 9, done := true } UP (1/2) 0
      = .error "AssertionError: col < n" := by
  refine ⟨?_, ?_, ?_⟩ <;>
  norm_num [GridWorld.step, GridWorld.get_reward, GridWorld.at_border,
    ind2coord, coord2ind, gridC3, GridWorld.init, UP, RIGHT, DOWN, LEFT]

/-- `_get_reward` never raises when the pre-move state is non-negative:
`done` short-circuits to the terminal reward, and otherwise `at_border`
only decodes the (non-negative) current state. -/
theorem get_reward_isOk (g : GridWorld) (ns : Option ℤ) (hs : 0 ≤ g.state) :
    ∃ r, g.get_reward ns = .ok r := by
  simp only [GridWorld.get_reward]
  by_cases hd : g.done = true
  · rw [if_pos hd]
    exact ⟨_, rfl⟩
  · rw [if_neg hd]
    have hab : g.at_border = .ok (decide (((g.state.toNat % g.n : ℕ) : ℤ) = 0 ∨
        ((g.state.toNat % g.n : ℕ) : ℤ) = (g.n : ℤ) - 1 ∨
        ((g.state.toNat / g.n : ℕ) : ℤ) = 0 ∨
        ((g.state.toNat / g.n : ℕ) : ℤ) = (g.n : ℤ) - 1)) := by
      rw [GridWorld.at_border, ind2coord, if_pos hs]
    by_cases hbr : g.border_reward ≠ 0
    · rw [if_pos hbr, hab]
      exact ⟨_, rfl⟩
    · rw [if_neg hbr]
      exact ⟨_, rfl⟩

/-- C10: decoding the grid model's absorbing state `n²` with `ind2coord`
yields `(row, col) = (0, n)` — a column outside `[0, n)`. Consequently,
with zero noise, a step from the absorbing state (when it differs from
the terminal state, as the constructor guarantees for a non-negative
offset) with RIGHT or LEFT clamps the column to `n − 1` and returns the
ordinary in-grid state `(n − 1)·n`, while UP or DOWN leaves `col = n`
and fails `coord2ind`'s `col < n` assertion instead of returning. -/
theorem C10_absorbing_decode (g : GridWorld) (n : ℕ) (hn : 1 ≤ n)
    (hgn : g.n = n) (hst : g.state = (n : ℤ) ^ 2) (hnoise : g.noise = 0)
    (hterm : g.terminal_state ≠ (n : ℤ) ^ 2) (draw : ℚ) (hdraw : 0 ≤ draw)
    (na : ℕ) :
    ind2coord n ((n : ℤ) ^ 2) = .ok (0, (n : ℤ)) ∧
    (∃ r, g.step RIGHT draw na =
      .ok ((((n : ℤ) - 1) * n, r, g.done), { g with state := ((n : ℤ) - 1) * n })) ∧
    (∃ r, g.step LEFT draw na =
      .ok ((((n : ℤ) - 1) * n, r, g.done), { g with state := ((n : ℤ) - 1) * n })) ∧
    g.step UP draw na = .error "AssertionError: col < n" ∧
    g.step DOWN draw na = .error "AssertionError: col < n" := by
  have hn0 : 0 < n := hn
  have hnz : (0:ℤ) < (n:ℤ) := by exact_mod_cast hn0
  have hnd : ¬ (draw < (0:ℚ)) := not_lt.mpr hdraw
  have hsq : ((n:ℤ)^2) = ((n*n : ℕ) : ℤ) := by push_cast; ring
  have hdecode : ind2coord n ((n:ℤ)^2) = .ok (0, (n:ℤ)) := by
    rw [ind2coord, if_pos (by positivity)]
    rw [hsq, Int.toNat_natCast, Nat.mul_mod_left, Nat.mul_div_cancel _ hn0]
    norm_num
  have hsge : (0:ℤ) ≤ g.state := by rw [hst]; positivity
  have hne2 : ¬ (g.state = g.terminal_state) := by
    rw [hst]; intro h; exact hterm h.symm
  obtain ⟨r1, hr1⟩ := get_reward_isOk g (some (((n:ℤ) - 1) * n)) hsge
  refine ⟨hdecode, ⟨r1, ?_⟩, ⟨r1, ?_⟩, ?_, ?_⟩
  · rw [GridWorld.step, if_pos (by norm_num [RIGHT]), if_neg hne2, hgn, hst,
      hnoise, hdecode]
    dsimp only
    rw [if_neg hnd]
    norm_num [UP, RIGHT, DOWN, LEFT]
    rw [min_eq_right (by linarith : (n:ℤ) - 1 ≤ (n:ℤ) + 1)]
    rw [coord2ind, if_pos hnz, if_pos (by linarith : (n:ℤ) - 1 < (n:ℤ))]
    dsimp only
    rw [add_zero, hr1]
  · rw [GridWorld.step, if_pos (by norm_num [LEFT]), if_neg hne2, hgn, hst,
      hnoise, hdecode]
    dsimp only
    rw [if_neg hnd]
    norm_num [UP, RIGHT, DOWN, LEFT]
    rw [max_eq_left (by linarith : (0:ℤ) ≤ (n:ℤ) - 1)]
    rw [coord2ind, if_pos hnz, if_pos (by linarith : (n:ℤ) - 1 < (n:ℤ))]
    dsimp only
    rw [add_zero, hr1]
  · rw [GridWorld.step, if_pos (by norm_num [UP]), if_neg hne2, hgn, hst,
      hnoise, hdecode]
    dsimp only
    rw [if_neg hnd]
    norm_num [UP, RIGHT, DOWN, LEFT]
    rw [coord2ind, if_pos hnz, if_neg (lt_irrefl ((n:ℤ)))]
  · rw [GridWorld.step, if_pos (by norm_num [DOWN]), if_neg hne2, hgn, hst,
      hnoise, hdecode]
    dsimp only
    rw [if_neg hnd]
    norm_num [UP, RIGHT, DOWN, LEFT]
    rw [coord2ind, if_pos (by
        have h1 : (1:ℤ) ⊓ ((n:ℤ) - 1) ≤ (n:ℤ) - 1 := min_le_right _ _
        linarith), if_neg (lt_irrefl ((n:ℤ)))]

theorem C10_absorbing_decode_witness :
    ((1:ℕ) ≤ 3) ∧
    (({ gridC3 with state := 9, done := true } : GridWorld).n = 3) ∧
    (({ gridC3 with state := 9, done := true } : GridWorld).state = ((3:ℕ) : ℤ) ^ 2) ∧
    (ind2coord 3 (((3:ℕ) : ℤ) ^ 2) = .ok (0, ((3:ℕ) : ℤ)) ∧
    (∃ r, ({ gridC3 with state := 9, done := true } : GridWorld).step RIGHT (1/2) 0 =
      .ok (((((3:ℕ) : ℤ) - 1) * (3:ℕ), r, ({ gridC3 with state := 9, done := true } : GridWorld).done),
        { ({ gridC3 with state := 9, done := true } : GridWorld) with
            state := (((3:ℕ) : ℤ) - 1) * (3:ℕ) })) ∧
    (∃ r, ({ gridC3 with state := 9, done := true } : GridWorld).step LEFT (1/2) 0 =
      .ok (((((3:ℕ) : ℤ) - 1) * (3:ℕ), r, ({ gridC3 with state := 9, done := true } : GridWorld).done),
        { ({ gridC3 with state := 9, done := true } : GridWorld) with
            state := (((3:ℕ) : ℤ) - 1) * (3:ℕ) })) ∧
    ({ gridC3 with state := 9, done := true } : GridWorld).step UP (1/2) 0
      = .error "AssertionError: col < n" ∧
    ({ gridC3 with state := 9, done := true } : GridWorld).step DOWN (1/2) 0
      = .error "AssertionError: col < n") :=
  ⟨by norm_num, by norm_num [gridC3, GridWorld.init],
    by norm_num [gridC3, GridWorld.init],
    C10_absorbing_decode { gridC3 with state := 9, done := true } 3 (by norm_num)
      (by norm_num [gridC3, GridWorld.init]) (by norm_num [gridC3, GridWorld.init])
      (by norm_num [gridC3, GridWorld.init])
      (by norm_num [gridC3, GridWorld.init]) (1/2) (by norm_num) 0⟩

/-!
## Claim about the generic engine (C8)
-/

/-- The C8 scenario transition table: `P[0][0] = [(1.0, 1, 5.0, True)]`,
`P[1][0] = [(1.0, 1, 0.0, True)]`. -/
def P_C8 : ℕ → ℕ → List (ℚ × ℕ × ℚ × Bool) := fun s a =>
  if s = 0 ∧ a = 0 then [(1, 1, 5, true)]
  else if s = 1 ∧ a = 0 then [(1, 1, 0, true)]
  else []

/-- C8: whenever `step(a)` returns, the engine has looked up
`P[current_state][a]`, sampled an index over its probability column, set
`current_state` to the chosen entry's next state and `last_action` to
`a`, and returned `(next_state, reward, done, probability)` taken from
that entry; and in the concrete scenario `nS=2, nA=1,
P = [(1,1,5,True)] / [(1,1,0,True)], isd=[1,0]`, `reset()` returns `0`
and `step(0)` returns `(1, 5, true, probability 1)` for all draws
below 1. -/
theorem C8_engine_step :
    (∀ (env : DiscreteEnv) (a : ℕ) (draw : ℚ) (x : ℕ × ℚ × Bool × ℚ)
        (env2 : DiscreteEnv), env.step a draw = some (x, env2) →
      env2.s = x.1 ∧ env2.lastaction = some a ∧
      (env.P env.s a)[categorical_sample ((env.P env.s a).map fun t => t.1) draw]?
        = some (x.2.2.2, x.1, x.2.1, x.2.2.1)) ∧
    (∀ d0 d1 : ℚ, d0 < 1 → d1 < 1 →
      (DiscreteEnv.init 2 1 P_C8 [1, 0] d0).s = 0 ∧
      (DiscreteEnv.init 2 1 P_C8 [1, 0] d0).step 0 d1
        = some ((1, 5, true, 1),
            { DiscreteEnv.init 2 1 P_C8 [1, 0] d0 with
                s := 1,
                lastaction := some 0 })) := by
  constructor
  · intro env a draw x env2 hstep
    rw [DiscreteEnv.step] at hstep
    split at hstep
    · exact Option.noConfusion hstep
    · rename_i p s r d heq
      rw [Option.some.injEq, Prod.mk.injEq] at hstep
      obtain ⟨hx, henv2⟩ := hstep
      refine ⟨by rw [← henv2, ← hx], by rw [← henv2], ?_⟩
      rw [← hx]
      exact heq
  · intro d0 d1 h0 h1
    have hs0 : (DiscreteEnv.init 2 1 P_C8 [1, 0] d0).s = 0 := by
      simp only [DiscreteEnv.init, DiscreteEnv.reset]
      norm_num [categorical_sample, cumsum, firstTrueIdx, List.range_succ, h0]
    refine ⟨hs0, ?_⟩
    have hPfield : (DiscreteEnv.init 2 1 P_C8 [1, 0] d0).P = P_C8 := rfl
    rw [DiscreteEnv.step]
    dsimp only
    rw [hs0, hPfield]
    have hP : P_C8 0 0 = [((1:ℚ), (1:ℕ), (5:ℚ), true)] := by norm_num [P_C8]
    rw [hP]
    have hsamp : categorical_sample ([((1:ℚ), (1:ℕ), (5:ℚ), true)].map fun t => t.1) d1
        = 0 := by
      norm_num [categorical_sample, cumsum, firstTrueIdx, List.range_succ, h1]
    rw [hsamp]
    rfl

theorem C8_engine_step_witness :
    ((1:ℚ)/3 < 1) ∧
    ((DiscreteEnv.init 2 1 P_C8 [1, 0] (1/3)).s = 0 ∧
      (DiscreteEnv.init 2 1 P_C8 [1, 0] (1/3)).step 0 (1/3)
        = some ((1, 5, true, 1),
            { DiscreteEnv.init 2 1 P_C8 [1, 0] (1/3) with
                s := 1,
                lastaction := some 0 })) :=
  ⟨by norm_num, C8_engine_step.2 (1/3) (1/3) (by norm_num) (by norm_num)⟩
